import Mathlib

/-!
Shallow embedding of the Ludolph jabber bot core (`ludolph/bot.py`):
the room membership manager (`muc_online`, `muc_offline`, `_room_members`,
`_room_config`), the configuration loader (`_load_config`), the plugin
loader (`_load_plugins`), the message dispatchers (`message`,
`muc_message`) and the subscription gate (`_handle_new_subscription`).

Python `set` objects are embedded as duplicate-free lists with
membership-checked insertion; Python `dict` values keyed on identity are
embedded as functions `String → Option Nat`.  Python string primitives
used by the dispatch path (`str.split()`, `str.lstrip(chars)`,
`str.strip()`, `str.startswith`) are embedded on character lists with
their exact Python semantics.
-/

namespace Ludolph

/-- Python's whitespace set used by `str.split()` / `str.strip()` with no
argument: space, tab, newline, carriage return, vertical tab, form feed. -/
def pyIsSpace (c : Char) : Bool :=
  c = ' ' || c = '\t' || c = '\n' || c = '\x0d' || c = '\x0b' || c = '\x0c'

/-- `str.lstrip(chars)` on character lists: remove leading characters that
are members of the character set `cs` (NOT a prefix removal). -/
def lstripCharsIn : List Char → List Char → List Char
  | [], _ => []
  | c :: rest, cs => if c ∈ cs then lstripCharsIn rest cs else c :: rest

/-- Python `str.lstrip(chars)`. -/
def pyLstripChars (s chars : String) : String :=
  ⟨lstripCharsIn s.data chars.data⟩

/-- Python `str.lstrip()` (no argument): strip leading whitespace. -/
def pyLstripWs (s : String) : String :=
  ⟨s.data.dropWhile pyIsSpace⟩

/-- Python `str.strip()` (no argument): strip whitespace at both ends. -/
def pyStrip (s : String) : String :=
  ⟨((s.data.dropWhile pyIsSpace).reverse.dropWhile pyIsSpace).reverse⟩

/-- Prefix test on character lists (Python `str.startswith`). -/
def beginsWithList : List Char → List Char → Bool
  | [], _ => true
  | _ :: _, [] => false
  | c :: cs, d :: ds => c = d && beginsWithList cs ds

/-- Python `s.startswith(pre)`. -/
def pyStartswith (s pre : String) : Bool :=
  beginsWithList pre.data s.data

/-- Helper for Python `str.split()`: accumulate the current word
(reversed) and cut at whitespace runs, dropping empty words. -/
def pySplitAux : List Char → List Char → List (List Char)
  | [], acc => if acc.isEmpty then [] else [acc.reverse]
  | c :: rest, acc =>
    if pyIsSpace c then
      if acc.isEmpty then pySplitAux rest [] else acc.reverse :: pySplitAux rest []
    else
      pySplitAux rest (c :: acc)

/-- Python `str.split()` with no argument: split on whitespace runs,
never producing empty tokens (so the result is `[]` for an empty or
all-whitespace string). -/
def pySplit (s : String) : List String :=
  (pySplitAux s.data []).map (fun l => ⟨l⟩)

/-! ### Python `set` / `OrderedDict` operations on duplicate-free lists -/

/-- `set.add` / `OrderedDict.__setitem__` for keys: insert only when
absent (assignment to an existing `OrderedDict` key keeps its position). -/
def setAdd (l : List String) (x : String) : List String :=
  if x ∈ l then l else l ++ [x]

/-- `set.update(other)`: add every element of `other`. -/
def setUpdate (l other : List String) : List String :=
  other.foldl setAdd l

/-- `set.intersection_update(other)`. -/
def setInter (l other : List String) : List String :=
  l.filter (fun x => x ∈ other)

/-- `dict[jid] = now` on the last-seen map. -/
def updateLastSeen (m : String → Option Nat) (jid : String) (now : Nat) :
    String → Option Nat :=
  fun j => if j = jid then some now else m j

/-! ### Data model: bot state, external environment, outbound effects -/

/-- Outbound calls the bot makes on the transport collaborator. -/
inductive Effect where
  /-- `msg_send(mto, mbody, mtype=...)` -/
  | sendMessage (mto mbody mtype : String)
  /-- `self.muc.invite(room, user)` -/
  | invite (room jid : String)
  /-- `self.send_presence(pto=...)` -/
  | sendPresence (pto : String)
  /-- `self.muc.setRoomConfig(...)` carrying the two policy fields
  `muc#roomconfig_membersonly` and `members_by_default`. -/
  | pushRoomConfig (membersOnly membersByDefault : Bool)
  /-- `self._room_members()` iq: the pushed affiliation list as
  `(jid, affiliation)` pairs, in order. -/
  | pushAffiliations (items : List (String × String))
  deriving DecidableEq, Repr

/-- The mutable `LudolphBot` fields the room membership manager,
config loader and dispatchers touch. -/
structure BotState where
  nick : String
  /-- `self.boundjid.bare` -/
  selfJid : String
  /-- `self.room` (empty string for falsy / unset) -/
  room : String
  room_invites : Bool
  /-- `self._muc_ready` -/
  muc_ready : Bool
  room_users : List String
  room_admins : List String
  room_users_invited : List String
  room_users_last_seen : String → Option Nat

/-- External facts an event handler reads: room roster presence
(`_is_jid_in_room`), the clock (`datetime.now()`), and whether
`muc.getRoomConfig` succeeds (it raises `ValueError` otherwise). -/
structure Env where
  present : String → Bool
  now : Nat
  roomConfigAvailable : Bool

/-- A room presence stanza as consumed by `muc_online` / `muc_offline`. -/
structure Presence where
  /-- `presence['from']` (full occupant JID `room/nick`) -/
  pfrom : String
  /-- `presence['from'].bare` -/
  pfromBare : String
  /-- `presence['muc']['jid']` (bare form used for last-seen keys) -/
  mucJid : String
  /-- `presence['muc']['nick']` -/
  mucNick : String

/-- The parsed configuration values `_load_config` consumes (the
`read_jid_array` results and scalar options). -/
structure Config where
  nick : String
  room : String
  room_invites : Bool
  cfg_room_users : List String
  cfg_room_admins : List String
  /-- `room_users_invited` entries merged in by `_db_load_items` when a
  persistent DB file is configured (empty list otherwise). -/
  dbInvited : List String

/-- `LudolphBot._load_config` restricted to the room-membership fields:
DB-persisted invites are merged in first (`db_enable` →
`_db_load_items`), the nick is taken when non-empty, `room_users` /
`room_admins` are cleared and refilled only when a room is configured,
and finally `room_users_invited` is intersected with the new
`room_users` when it is non-empty. -/
def load_config (c : Config) (s : BotState) : BotState :=
  let invited₀ := setUpdate s.room_users_invited c.dbInvited
  let nick' := if c.nick ≠ "" then c.nick else s.nick
  let room_users' := if c.room ≠ "" then setUpdate [] c.cfg_room_users else []
  let room_admins' := if c.room ≠ "" then setUpdate [] c.cfg_room_admins else []
  { s with
    nick := nick'
    room := c.room
    room_invites := c.room_invites
    room_users := room_users'
    room_admins := room_admins'
    room_users_invited :=
      if invited₀.isEmpty then invited₀ else setInter invited₀ room_users' }

/-- `LudolphBot._room_members`: the affiliation item list pushed to the
room — `owner` for the bot's own bare JID, then one item per configured
room user: `admin` when the user is also a room admin, `member`
otherwise. -/
def room_members_items (s : BotState) : List (String × String) :=
  (s.selfJid, "owner") ::
    s.room_users.map (fun jid =>
      (jid, if jid ∈ s.room_admins then "admin" else "member"))

/-- `LudolphBot._room_config`: when `getRoomConfig` fails the method
returns early with no pushes; otherwise it pushes the room config
(members-only iff `room_users` is non-empty, membership-by-default iff
it is empty) and then the affiliation list. -/
def room_config_effects (env : Env) (s : BotState) : List Effect :=
  if env.roomConfigAvailable then
    (if s.room_users.isEmpty then
      [Effect.pushRoomConfig false true]
     else
      [Effect.pushRoomConfig true false]) ++
    [Effect.pushAffiliations (room_members_items s)]
  else
    []

/-- Loop-carried state of the reconciliation loop in `muc_online`. -/
structure LoopState where
  invited : List String
  lastSeen : String → Option Nat
  effects : List Effect

/-- One iteration of `for user in self.room_users` in `muc_online`'s
own-presence branch: present users get a last-seen update; absent users
other than the room itself are invited (and recorded) when invitations
are enabled and no invitation was recorded before. -/
def reconcileUser (env : Env) (room : String) (room_invites : Bool)
    (st : LoopState) (user : String) : LoopState :=
  if env.present user then
    { st with lastSeen := updateLastSeen st.lastSeen user env.now }
  else if user ≠ room then
    if room_invites then
      if user ∈ st.invited then st
      else
        { st with
          effects := st.effects ++ [Effect.invite room user]
          invited := st.invited ++ [user] }
    else st
  else st

/-- `LudolphBot.muc_online`: on the bot's own presence stanza it pushes
the room configuration and affiliations, announces itself, sets
`_muc_ready`, answers the presence, and runs the invitation
reconciliation loop; on any other occupant's presence it records
last-seen for the joining JID and greets the nick — with no
`_muc_ready` check. -/
def muc_online (env : Env) (p : Presence) (s : BotState) :
    BotState × List Effect :=
  if p.pfrom = s.room ++ "/" ++ s.nick then
    let st₀ : LoopState := ⟨s.room_users_invited, s.room_users_last_seen, []⟩
    let st := s.room_users.foldl (reconcileUser env s.room s.room_invites) st₀
    ({ s with
        muc_ready := true
        room_users_invited := st.invited
        room_users_last_seen := st.lastSeen },
     room_config_effects env s ++
       [Effect.sendMessage s.room (s.nick ++ " is here!") "groupchat",
        Effect.sendPresence p.pfrom] ++
       st.effects)
  else
    ({ s with
        room_users_last_seen := updateLastSeen s.room_users_last_seen p.mucJid env.now },
     [Effect.sendMessage p.pfromBare ("Hello " ++ p.mucNick ++ "!") "groupchat"])

/-- `LudolphBot.muc_offline`: record last-seen for the leaving JID and
send a farewell — unconditionally, with no `_muc_ready` check. -/
def muc_offline (env : Env) (p : Presence) (s : BotState) :
    BotState × List Effect :=
  ({ s with
      room_users_last_seen := updateLastSeen s.room_users_last_seen p.mucJid env.now },
   [Effect.sendMessage p.pfromBare ("Bye bye " ++ p.mucNick) "groupchat"])

/-! ### Command dispatch (`message`, `muc_message`) -/

/-- Exceptions the dispatch path can raise. -/
inductive PyError where
  | indexError
  deriving DecidableEq, Repr

/-- What a call to `message` produced. -/
inductive MessageOutcome where
  /-- stanza type not in the accepted set: handler returns `None` early -/
  | ignored
  /-- a registered command was found and its handler invoked -/
  | ranCommand (name : String)
  /-- the fixed fallback reply sent on lookup miss -/
  | fallback (text : String)
  deriving DecidableEq, Repr

/-- Modelled from the spec: `commands.get_command` of
`ludolph/command.py` (not under `src/`) — looking a name up in the
current command table yields its command on a hit and nothing on a
miss, never an exception (§4.4 step 3). The table is the list of
registered command names. -/
def get_command (tbl : List String) (name : String) : Option String :=
  if name ∈ tbl then some name else none

/-- `LudolphBot.message`: drop stanza types outside `types`, take the
first whitespace token of the body (`msg['body'].split()[0]` — an
`IndexError` when the body has no token), strip it, look it up, and
either run the command or reply with the fixed fallback text quoting
the body. -/
def message (tbl : List String) (types : List String) (mtype body : String) :
    Except PyError MessageOutcome :=
  if mtype ∉ types then
    .ok .ignored
  else
    match pySplit body with
    | [] => .error .indexError
    | tok :: _ =>
      match get_command tbl (pyStrip tok) with
      | some c => .ok (.ranCommand c)
      | none =>
        .ok (.fallback ("Sorry, I don\x27t understand \x22" ++ body ++
          "\x22\nPlease type \x22help\x22 for more info"))

/-- The body rewrite in `muc_message`:
`msg['body'].lstrip(nick).lstrip()` with `nick = self.nick + ':'` —
character-set strip, then whitespace strip. -/
def muc_strip_body (nick body : String) : String :=
  pyLstripWs (pyLstripChars body (nick ++ ":"))

/-- A group-chat message stanza as consumed by `muc_message`. -/
structure MucMsg where
  mtype : String
  mucnick : String
  body : String

/-- What a call to `muc_message` produced. -/
inductive MucOutcome where
  /-- dropped silently (`return` with no reply) -/
  | dropped
  /-- forwarded into `message` with the rewritten body -/
  | handled (out : MessageOutcome)
  deriving DecidableEq, Repr

/-- `LudolphBot.muc_message`: drop everything until `_muc_ready`, drop
the bot's own echoes, require the body to start with `nick + ':'` and a
truthy `get_jid` result (`jidLookup`, `None` or empty bare JID is
falsy), rewrite the body with `lstrip(nick).lstrip()` and forward to
`message` with accepted types `('groupchat',)`. -/
def muc_message (s : BotState) (tbl : List String) (msg : MucMsg)
    (jidLookup : Option String) : Except PyError MucOutcome :=
  if ¬ s.muc_ready then
    .ok .dropped
  else if msg.mucnick = s.nick then
    .ok .dropped
  else if pyStartswith msg.body (s.nick ++ ":") &&
      (match jidLookup with | none => false | some j => j ≠ "") then
    (message tbl ["groupchat"] msg.mtype (muc_strip_body s.nick msg.body)).map
      MucOutcome.handled
  else
    .ok .dropped

/-! ### Plugin loading (`_load_plugins`) -/

/-- A plugin spec as passed to `_load_plugins`: its module name and
whether its constructor `plugin.cls(self, cfg, reinit=reinit)`
succeeds (raises otherwise). -/
structure PluginSpec where
  module : String
  ctorOk : Bool
  deriving DecidableEq, Repr

/-- The module key `_load_plugins` registers the bot itself under
(`__name__` of `ludolph.bot`). -/
def botModname : String := "ludolph.bot"

/-- One iteration of `for plugin in plugins` in `_load_plugins`: on a
reload of an already-registered module the old entry is deleted first;
then the constructor is attempted, and only on success is the module
(re)inserted into the registry. The registry is its ordered key list. -/
def loadPluginStep (init : Bool) (reg : List String) (p : PluginSpec) :
    List String :=
  let reg₁ := if init ∨ p.module ∉ reg then reg else reg.erase p.module
  if p.ctorOk then setAdd reg₁ p.module else reg₁

/-- `LudolphBot._load_plugins` on the registry key set: `init` clears
the registry down to the bot's own entry; a reload first drops every
registered module (other than the bot) absent from the new spec list;
then every spec is processed in order by `loadPluginStep`. -/
def load_plugins (init : Bool) (specs : List PluginSpec) (reg : List String) :
    List String :=
  let reg₀ :=
    if init then [botModname]
    else reg.filter (fun m => m = botModname ∨ m ∈ specs.map PluginSpec.module)
  specs.foldl (loadPluginStep init) reg₀

/-! ### Subscription gating (`_handle_new_subscription`) -/

/-- What `_handle_new_subscription` does with a presence-subscription
request. -/
inductive SubscriptionAction where
  /-- handed to the default auto-authorization path
  (`super()._handle_new_subscription(pres)`) -/
  | autoAuthorize
  /-- only logged as not allowed, never authorized -/
  | logOnly
  deriving DecidableEq, Repr

/-- `LudolphBot._handle_new_subscription`: auto-authorize when the
configured users set is falsy (empty) or contains the requester,
otherwise only log a warning. -/
def handle_new_subscription (users : List String) (user : String) :
    SubscriptionAction :=
  if users.isEmpty || user ∈ users then .autoAuthorize else .logOnly

/-! ### Concrete fixtures used to evaluate the embedding -/

/-- A concrete environment: only `b@x` is present in the room. -/
def sampleEnv : Env := ⟨fun j => j == "b@x", 7, true⟩

/-- A concrete bot state with two configured room users, one stale
invite, and the room joined but not yet ready. -/
def sampleState : BotState :=
  ⟨"Ludolph", "bot@x", "room@c", true, false, ["a@x", "b@x"], ["a@x"],
   ["stale@x"], fun _ => none⟩

/-- The bot's own join presence echo for `sampleState`. -/
def sampleOwnPresence : Presence :=
  ⟨"room@c/Ludolph", "room@c", "bot@x", "Ludolph"⟩

/-- A join/leave presence of an ordinary participant. -/
def sampleMemberPresence : Presence :=
  ⟨"room@c/alice", "room@c", "alice@x", "alice"⟩

/-- A concrete parsed configuration, with a stale persisted invite. -/
def sampleConfig : Config :=
  ⟨"Ludolph", "room@c", true, ["a@x", "b@x"], ["a@x"], ["a@x", "stale@x"]⟩

/-! ### Lemmas about the reconciliation loop -/

/-- One reconciliation step never removes an invited identity. -/
theorem reconcileUser_invited_mono (env : Env) (room : String) (ri : Bool)
    (st : LoopState) (u x : String) (hx : x ∈ st.invited) :
    x ∈ (reconcileUser env room ri st u).invited := by
  unfold reconcileUser
  split_ifs <;> simp_all

/-- The whole loop never removes an invited identity. -/
theorem foldl_reconcile_invited_mono (env : Env) (room : String) (ri : Bool)
    (l : List String) (st : LoopState) (x : String) (hx : x ∈ st.invited) :
    x ∈ (l.foldl (reconcileUser env room ri) st).invited := by
  induction l generalizing st with
  | nil => exact hx
  | cons u t ih => exact ih _ (reconcileUser_invited_mono env room ri st u x hx)

/-- One reconciliation step only ever adds the processed user. -/
theorem reconcileUser_invited_sub (env : Env) (room : String) (ri : Bool)
    (st : LoopState) (u x : String)
    (hx : x ∈ (reconcileUser env room ri st u).invited) :
    x ∈ st.invited ∨ x = u := by
  unfold reconcileUser at hx
  split_ifs at hx <;> simp_all

/-- Every identity invited by the loop came from the invited set or the
iterated user list. -/
theorem foldl_reconcile_invited_sub (env : Env) (room : String) (ri : Bool)
    (l : List String) (st : LoopState) (x : String)
    (hx : x ∈ (l.foldl (reconcileUser env room ri) st).invited) :
    x ∈ st.invited ∨ x ∈ l := by
  induction l generalizing st with
  | nil => exact Or.inl hx
  | cons u t ih =>
    rcases ih _ hx with h | h
    · rcases reconcileUser_invited_sub env room ri st u x h with h' | h'
      · exact Or.inl h'
      · exact Or.inr (h' ▸ List.mem_cons_self u t)
    · exact Or.inr (List.mem_cons_of_mem _ h)

/-- After the loop, every absent configured user other than the room
itself is recorded as invited (when invitations are enabled). -/
theorem foldl_reconcile_covers (env : Env) (room : String) (ri : Bool)
    (l : List String) (st : LoopState) (u : String) (hu : u ∈ l)
    (hpres : env.present u = false) (hroom : u ≠ room) (hri : ri = true) :
    u ∈ (l.foldl (reconcileUser env room ri) st).invited := by
  induction l generalizing st with
  | nil => cases hu
  | cons v t ih =>
    rcases List.mem_cons.mp hu with rfl | h
    · simp only [List.foldl_cons]
      apply foldl_reconcile_invited_mono
      unfold reconcileUser
      split_ifs with h1 h2
      · exact absurd h1 (by simp [hpres])
      · exact h2
      · simp
    · simp only [List.foldl_cons]
      exact ih _ h

/-- When every invitation candidate is already recorded as invited, the
loop issues no effects and leaves the invited set unchanged. -/
theorem foldl_reconcile_no_new_invites (env : Env) (room : String) (ri : Bool)
    (l : List String) (st : LoopState)
    (hcov : ∀ u ∈ l, env.present u = false → u ≠ room → ri = true →
      u ∈ st.invited) :
    (l.foldl (reconcileUser env room ri) st).effects = st.effects ∧
    (l.foldl (reconcileUser env room ri) st).invited = st.invited := by
  induction l generalizing st with
  | nil => exact ⟨rfl, rfl⟩
  | cons v t ih =>
    have hstep : (reconcileUser env room ri st v).effects = st.effects ∧
        (reconcileUser env room ri st v).invited = st.invited := by
      unfold reconcileUser
      split_ifs with h1 h2 h3 h4
      · exact ⟨rfl, rfl⟩
      · exact ⟨rfl, rfl⟩
      · exact absurd (hcov v (List.mem_cons_self v t)
          (Bool.eq_false_iff.mpr h1) h2 h3) h4
      · exact ⟨rfl, rfl⟩
      · exact ⟨rfl, rfl⟩
    have ht := ih (reconcileUser env room ri st v)
      (fun u hu hp hr hri => hstep.2 ▸ hcov u (List.mem_cons_of_mem _ hu) hp hr hri)
    simp only [List.foldl_cons]
    exact ⟨ht.1.trans hstep.1, ht.2.trans hstep.2⟩

/-- Once an identity is recorded as invited, the loop never issues
another invitation for it. -/
theorem foldl_reconcile_count_invited (env : Env) (room : String) (ri : Bool)
    (l : List String) (st : LoopState) (u : String) (hu : u ∈ st.invited) :
    (l.foldl (reconcileUser env room ri) st).effects.count (Effect.invite room u) =
      st.effects.count (Effect.invite room u) := by
  induction l generalizing st with
  | nil => rfl
  | cons v t ih =>
    have hstep : (reconcileUser env room ri st v).effects.count (Effect.invite room u) =
        st.effects.count (Effect.invite room u) ∧
        u ∈ (reconcileUser env room ri st v).invited := by
      unfold reconcileUser
      split_ifs with h1 h2 h3 h4
      · exact ⟨rfl, hu⟩
      · exact ⟨rfl, hu⟩
      · have hvu : (Effect.invite room v) ≠ (Effect.invite room u) := by
          intro h
          exact h4 (by cases h; exact hu)
        refine ⟨?_, List.mem_append_left _ hu⟩
        simp [List.count_append, List.count_singleton, hvu]
      · exact ⟨rfl, hu⟩
      · exact ⟨rfl, hu⟩
    simp only [List.foldl_cons]
    exact (ih _ hstep.2).trans hstep.1

/-- The loop issues at most one invitation per identity beyond what is
already recorded: none when the identity is invited, at most one
otherwise. -/
theorem foldl_reconcile_count_le (env : Env) (room : String) (ri : Bool)
    (l : List String) (st : LoopState) (u : String) :
    (l.foldl (reconcileUser env room ri) st).effects.count (Effect.invite room u) ≤
      st.effects.count (Effect.invite room u) +
        (if u ∈ st.invited then 0 else 1) := by
  induction l generalizing st with
  | nil => split_ifs <;> simp
  | cons v t ih =>
    by_cases hu : u ∈ st.invited
    · rw [foldl_reconcile_count_invited env room ri _ _ u hu]
      simp
    · simp only [List.foldl_cons, if_neg hu]
      by_cases hv : (reconcileUser env room ri st v).effects = st.effects ∧
          (reconcileUser env room ri st v).invited = st.invited
      · calc (t.foldl (reconcileUser env room ri)
              (reconcileUser env room ri st v)).effects.count (Effect.invite room u)
            ≤ (reconcileUser env room ri st v).effects.count (Effect.invite room u) +
              (if u ∈ (reconcileUser env room ri st v).invited then 0 else 1) := ih _
          _ ≤ st.effects.count (Effect.invite room u) + 1 := by
              rw [hv.1, hv.2, if_neg hu]
      · -- the step changed something: it is the invite branch for `v`
        have hbranch : env.present v = false ∧ v ≠ room ∧ ri = true ∧
            v ∉ st.invited ∧
            (reconcileUser env room ri st v).effects =
              st.effects ++ [Effect.invite room v] ∧
            (reconcileUser env room ri st v).invited = st.invited ++ [v] := by
          unfold reconcileUser at hv ⊢
          split_ifs at hv ⊢ with h1 h2 h3 h4
          · exact absurd ⟨rfl, rfl⟩ hv
          · exact absurd ⟨rfl, rfl⟩ hv
          · exact ⟨Bool.eq_false_iff.mpr h1, h2, h3, h4, rfl, rfl⟩
          · exact absurd ⟨rfl, rfl⟩ hv
          · exact absurd ⟨rfl, rfl⟩ hv
        by_cases hvu : v = u
        · subst hvu
          have hin : v ∈ (reconcileUser env room ri st v).invited := by
            rw [hbranch.2.2.2.2.2]; exact List.mem_append_right _ (List.mem_singleton.mpr rfl)
          rw [foldl_reconcile_count_invited env room ri t _ v hin,
            hbranch.2.2.2.2.1]
          simp [List.count_append, List.count_singleton]
        · have hne : (Effect.invite room v) ≠ (Effect.invite room u) := by
            intro h; cases h; exact hvu rfl
          have hcount : (reconcileUser env room ri st v).effects.count
              (Effect.invite room u) = st.effects.count (Effect.invite room u) := by
            rw [hbranch.2.2.2.2.1]
            simp [List.count_append, List.count_singleton, hne]
          have hinv : u ∉ (reconcileUser env room ri st v).invited := by
            rw [hbranch.2.2.2.2.2]
            intro hmem
            rcases List.mem_append.mp hmem with h | h
            · exact hu h
            · exact hvu (List.mem_singleton.mp h).symm
          calc (t.foldl (reconcileUser env room ri)
              (reconcileUser env room ri st v)).effects.count (Effect.invite room u)
              ≤ (reconcileUser env room ri st v).effects.count (Effect.invite room u) +
                (if u ∈ (reconcileUser env room ri st v).invited then 0 else 1) := ih _
            _ ≤ st.effects.count (Effect.invite room u) + 1 := by
                rw [hcount, if_neg hinv]

/-- A user present in the room never receives an invitation from the
loop. -/
theorem foldl_reconcile_present_no_invite (env : Env) (room : String) (ri : Bool)
    (l : List String) (st : LoopState) (u : String)
    (hp : env.present u = true) :
    (l.foldl (reconcileUser env room ri) st).effects.count (Effect.invite room u) =
      st.effects.count (Effect.invite room u) := by
  induction l generalizing st with
  | nil => rfl
  | cons v t ih =>
    have hstep : (reconcileUser env room ri st v).effects.count (Effect.invite room u) =
        st.effects.count (Effect.invite room u) := by
      unfold reconcileUser
      split_ifs with h1 h2 h3 h4
      · rfl
      · rfl
      · have hvu : (Effect.invite room v) ≠ (Effect.invite room u) := by
          intro h
          injection h with h₁ h₂
          subst h₂
          exact h1 hp
        simp [List.count_append, List.count_singleton, hvu]
      · rfl
      · rfl
    simp only [List.foldl_cons]
    exact (ih _).trans hstep

/-- No invitation effect ever appears in the room-configuration push. -/
theorem invite_not_in_room_config_effects (env : Env) (s : BotState)
    (r u : String) : Effect.invite r u ∉ room_config_effects env s := by
  unfold room_config_effects
  split_ifs <;> simp

/-- `muc_online` on the bot's own presence stanza, unfolded. -/
theorem muc_online_own (env : Env) (p : Presence) (s : BotState)
    (hp : p.pfrom = s.room ++ "/" ++ s.nick) :
    muc_online env p s =
      (let st := s.room_users.foldl (reconcileUser env s.room s.room_invites)
          ⟨s.room_users_invited, s.room_users_last_seen, []⟩;
        ({ s with
            muc_ready := true
            room_users_invited := st.invited
            room_users_last_seen := st.lastSeen },
         room_config_effects env s ++
           [Effect.sendMessage s.room (s.nick ++ " is here!") "groupchat",
            Effect.sendPresence p.pfrom] ++ st.effects)) := by
  unfold muc_online
  rw [if_pos hp]

/-- After `_load_config`, the invited set is contained in the new
configured room-member set. -/
theorem load_config_invited_sub (c : Config) (s : BotState) :
    (load_config c s).room_users_invited ⊆ (load_config c s).room_users := by
  intro x hx
  simp only [load_config, setInter] at hx ⊢
  split_ifs at hx ⊢ with h h2 h3
  · rw [List.isEmpty_iff.mp h2] at hx
    cases hx
  · exact of_decide_eq_true (List.mem_filter.mp hx).2
  · rw [List.isEmpty_iff.mp h3] at hx
    cases hx
  · simpa using (List.mem_filter.mp hx).2

/-! ### Lemmas about the plugin loader -/

/-- `setAdd` always contains the added key. -/
theorem mem_setAdd_self (l : List String) (x : String) : x ∈ setAdd l x := by
  unfold setAdd
  split_ifs with h
  · exact h
  · simp

/-- Membership in `setAdd` for any key. -/
theorem mem_setAdd (l : List String) (x m : String) :
    m ∈ setAdd l x ↔ m ∈ l ∨ m = x := by
  unfold setAdd
  split_ifs with h
  · constructor
    · exact Or.inl
    · rintro (hm | rfl)
      · exact hm
      · exact h
  · simp [List.mem_append]

/-- `setAdd` preserves key uniqueness. -/
theorem setAdd_nodup (l : List String) (x : String) (h : l.Nodup) :
    (setAdd l x).Nodup := by
  unfold setAdd
  split_ifs with hx
  · exact h
  · refine List.nodup_append.mpr ⟨h, List.nodup_singleton x, ?_⟩
    intro a ha hb
    rw [List.mem_singleton] at hb
    exact hx (hb ▸ ha)

/-- One plugin-load iteration preserves registry key uniqueness. -/
theorem loadPluginStep_nodup (init : Bool) (reg : List String) (p : PluginSpec)
    (h : reg.Nodup) : (loadPluginStep init reg p).Nodup := by
  unfold loadPluginStep
  split_ifs with h1 h2 h3
  · exact setAdd_nodup _ _ h
  · exact h
  · exact setAdd_nodup _ _ (h.erase _)
  · exact h.erase _

/-- The whole plugin-load fold preserves registry key uniqueness. -/
theorem foldl_loadPluginStep_nodup (init : Bool) (l : List PluginSpec)
    (reg : List String) (h : reg.Nodup) :
    (l.foldl (loadPluginStep init) reg).Nodup := by
  induction l generalizing reg with
  | nil => exact h
  | cons q t ih => exact ih _ (loadPluginStep_nodup init reg q h)

/-- Processing one spec leaves membership of every other module key
unchanged. -/
theorem loadPluginStep_mem_other (init : Bool) (reg : List String)
    (p : PluginSpec) (m : String) (hne : p.module ≠ m) :
    m ∈ loadPluginStep init reg p ↔ m ∈ reg := by
  have hme : m ∈ reg.erase p.module ↔ m ∈ reg :=
    List.mem_erase_of_ne (fun h => hne h.symm)
  unfold loadPluginStep
  split_ifs with h1 h2 h3
  · rw [mem_setAdd]
    refine ⟨?_, Or.inl⟩
    rintro (hm | rfl)
    · exact hm
    · exact absurd rfl hne
  · exact Iff.rfl
  · rw [mem_setAdd, hme]
    refine ⟨?_, Or.inl⟩
    rintro (hm | rfl)
    · exact hm
    · exact absurd rfl hne
  · exact hme

/-- Folding over specs that never mention module `m` leaves membership
of `m` unchanged. -/
theorem foldl_loadPluginStep_mem_other (init : Bool) (l : List PluginSpec)
    (reg : List String) (m : String) (hne : ∀ q ∈ l, q.module ≠ m) :
    m ∈ l.foldl (loadPluginStep init) reg ↔ m ∈ reg := by
  induction l generalizing reg with
  | nil => exact Iff.rfl
  | cons q t ih =>
    simp only [List.foldl_cons]
    rw [ih _ (fun q' hq' => hne q' (List.mem_cons_of_mem _ hq')),
      loadPluginStep_mem_other init reg q m (hne q (List.mem_cons_self q t))]

/-- Processing a spec's own step: a failing constructor leaves its
module out of the registry, a succeeding one puts it in. -/
theorem loadPluginStep_self (init : Bool) (reg : List String) (p : PluginSpec)
    (hreg : reg.Nodup) (hinit : init = true → p.module ∉ reg) :
    (p.ctorOk = false → p.module ∉ loadPluginStep init reg p) ∧
    (p.ctorOk = true → p.module ∈ loadPluginStep init reg p) := by
  unfold loadPluginStep
  constructor <;> intro h <;> rw [h]
  · simp only [Bool.false_eq_true, if_false]
    split_ifs with h1
    · rcases h1 with hi | hout
      · exact hinit hi
      · exact hout
    · push_neg at h1
      intro hmem
      exact ((hreg.mem_erase_iff).mp hmem).1 rfl
  · simp only [if_true]
    split_ifs with h1 <;> exact mem_setAdd_self _ _

/-! ### Claim theorems -/

/-- C10: a presence-subscription request from an identity outside a
non-empty configured users set is never auto-authorized (only logged),
while an empty users set or a listed requester is handed to the default
auto-authorization path. -/
theorem subscription_gated_by_users (users : List String) (user : String) :
    (users ≠ [] → user ∉ users →
      handle_new_subscription users user = .logOnly) ∧
    ((users = [] ∨ user ∈ users) →
      handle_new_subscription users user = .autoAuthorize) := by
  refine ⟨fun h1 h2 => ?_, fun h => ?_⟩
  · simp [handle_new_subscription, List.isEmpty_iff, h1, h2]
  · rcases h with h | h <;> simp [handle_new_subscription, List.isEmpty_iff, h]

/-- Witness for C10 at a concrete users set and requester. -/
theorem subscription_gated_by_users_witness :
    handle_new_subscription ["a@example.com"] "b@example.com" = .logOnly ∧
    handle_new_subscription [] "b@example.com" = .autoAuthorize :=
  ⟨(subscription_gated_by_users ["a@example.com"] "b@example.com").1
      (by decide) (by decide),
   (subscription_gated_by_users [] "b@example.com").2 (Or.inl rfl)⟩

/-- C7: whenever the room configuration pass reaches the push (the
current configuration could be fetched), a non-empty configured
room-member set yields members-only with membership-by-default off, and
an empty one yields an open room with membership-by-default on. -/
theorem room_config_policy (env : Env) (s : BotState)
    (hok : env.roomConfigAvailable = true) :
    (s.room_users ≠ [] →
      Effect.pushRoomConfig true false ∈ room_config_effects env s ∧
      Effect.pushRoomConfig false true ∉ room_config_effects env s) ∧
    (s.room_users = [] →
      Effect.pushRoomConfig false true ∈ room_config_effects env s ∧
      Effect.pushRoomConfig true false ∉ room_config_effects env s) := by
  constructor <;> intro h <;>
    simp [room_config_effects, hok, List.isEmpty_iff, h]

/-- Witness for C7 at a concrete environment and both member-set
shapes. -/
theorem room_config_policy_witness :
    (Effect.pushRoomConfig true false ∈ room_config_effects
      ⟨fun _ => false, 0, true⟩
      ⟨"Ludolph", "bot@x", "room@c", true, false, ["a@x"], [], [], fun _ => none⟩ ∧
     Effect.pushRoomConfig false true ∉ room_config_effects
      ⟨fun _ => false, 0, true⟩
      ⟨"Ludolph", "bot@x", "room@c", true, false, ["a@x"], [], [], fun _ => none⟩) ∧
    Effect.pushRoomConfig false true ∈ room_config_effects
      ⟨fun _ => false, 0, true⟩
      ⟨"Ludolph", "bot@x", "room@c", true, false, [], [], [], fun _ => none⟩ :=
  ⟨(room_config_policy ⟨fun _ => false, 0, true⟩
      ⟨"Ludolph", "bot@x", "room@c", true, false, ["a@x"], [], [], fun _ => none⟩
      rfl).1 (by decide),
   ((room_config_policy ⟨fun _ => false, 0, true⟩
      ⟨"Ludolph", "bot@x", "room@c", true, false, [], [], [], fun _ => none⟩
      rfl).2 rfl).1⟩

/-- C6 counterexample: a configured room admin that is not listed among
the room members receives no entry at all in the pushed affiliation
list — refuting that every configured room-admin receives `admin`. -/
theorem room_admin_outside_members_unaffiliated :
    "alice@x" ∈ (⟨"Ludolph", "bot@x", "room@c", true, false, [], ["alice@x"], [],
        fun _ => none⟩ : BotState).room_admins ∧
    room_members_items ⟨"Ludolph", "bot@x", "room@c", true, false, [], ["alice@x"], [],
        fun _ => none⟩ = [("bot@x", "owner")] ∧
    ("alice@x", "admin") ∉ room_members_items ⟨"Ludolph", "bot@x", "room@c", true,
        false, [], ["alice@x"], [], fun _ => none⟩ := by
  refine ⟨by decide, rfl, by decide⟩

/-- C6 amended: the pushed affiliation list assigns `owner` to the
bot's own bare identity, `admin` to every configured room member that
is also a room admin, `member` to every other configured room member,
and an identity receives some affiliation exactly when it is the bot or
a configured room member — a room-admin outside the member set receives
none. -/
theorem room_members_affiliations (s : BotState) (jid : String) :
    (((jid, "admin") ∈ room_members_items s) ↔
      jid ∈ s.room_users ∧ jid ∈ s.room_admins) ∧
    (((jid, "member") ∈ room_members_items s) ↔
      jid ∈ s.room_users ∧ jid ∉ s.room_admins) ∧
    (((jid, "owner") ∈ room_members_items s) ↔ jid = s.selfJid) ∧
    ((∃ a, (jid, a) ∈ room_members_items s) ↔
      jid = s.selfJid ∨ jid ∈ s.room_users) := by
  simp only [room_members_items, List.mem_cons, List.mem_map, Prod.mk.injEq]
  by_cases h : jid ∈ s.room_admins
  · refine ⟨?_, ?_, ?_, ?_⟩ <;> constructor <;> aesop
  · refine ⟨?_, ?_, ?_, ?_⟩ <;> constructor <;> aesop

/-- C2 (code evaluated at the failing input): a direct-chat message of
an accepted type whose body is empty or all-whitespace makes the
handler raise `IndexError` (from `msg['body'].split()[0]`) instead of
producing the fallback reply; a non-empty unregistered first token does
produce the fixed fallback reply. -/
theorem message_empty_body_raises :
    message ["help"] ["chat", "normal"] "chat" "" = .error .indexError ∧
    message ["help"] ["chat", "normal"] "chat" " \t " = .error .indexError ∧
    message ["help"] ["chat", "normal"] "chat" "bogus" =
      .ok (.fallback ("Sorry, I don\x27t understand \x22bogus\x22\nPlease type \x22help\x22 for more info")) :=
  ⟨rfl, rfl, rfl⟩

/-- C3 (code evaluated at the failing input): `lstrip(nick + ':')`
strips a character SET, not the prefix, so for body `"Ludolph:help"`
the rewritten body is `"elp"` — the command word is mangled and the
registered command `help` is not found, producing the fallback reply
quoting `"elp"`. -/
theorem muc_message_lstrip_mangles_command :
    muc_strip_body "Ludolph" "Ludolph:help" = "elp" ∧
    muc_message
      ⟨"Ludolph", "bot@x", "room@c", true, true, [], [], [], fun _ => none⟩
      ["help"] ⟨"groupchat", "alice", "Ludolph:help"⟩ (some "alice@x") =
      .ok (.handled (.fallback
        ("Sorry, I don\x27t understand \x22elp\x22\nPlease type \x22help\x22 for more info"))) :=
  ⟨rfl, rfl⟩

/-- C4 counterexample: with `_muc_ready` still false, a join presence
of a non-bot participant already triggers the greeting — the
`_muc_ready` gate does not cover greetings. -/
theorem greeting_emitted_before_ready :
    (⟨"Ludolph", "bot@x", "room@c", true, false, [], [], [],
        fun _ => none⟩ : BotState).muc_ready = false ∧
    (muc_online ⟨fun _ => false, 5, true⟩
        ⟨"room@c/alice", "room@c", "alice@x", "alice"⟩
        ⟨"Ludolph", "bot@x", "room@c", true, false, [], [], [],
          fun _ => none⟩).2 =
      [Effect.sendMessage "room@c" "Hello alice!" "groupchat"] :=
  ⟨rfl, rfl⟩

/-- C4 amended: the greeting and farewell are emitted for every non-bot
join/leave presence event regardless of `_muc_ready`; the `_muc_ready`
gate applies only to group-chat message dispatch, which drops every
message while the room is not ready. -/
theorem greeting_farewell_ungated (env : Env) (p : Presence) (s : BotState)
    (tbl : List String) (msg : MucMsg) (j : Option String)
    (hp : p.pfrom ≠ s.room ++ "/" ++ s.nick) (hr : s.muc_ready = false) :
    (muc_online env p s).2 =
      [Effect.sendMessage p.pfromBare ("Hello " ++ p.mucNick ++ "!") "groupchat"] ∧
    (muc_offline env p s).2 =
      [Effect.sendMessage p.pfromBare ("Bye bye " ++ p.mucNick) "groupchat"] ∧
    muc_message s tbl msg j = .ok .dropped := by
  refine ⟨?_, rfl, ?_⟩
  · simp [muc_online, hp]
  · simp [muc_message, hr]

/-- Witness for C4's amended statement at a concrete not-ready state
and presence. -/
theorem greeting_farewell_ungated_witness :
    (muc_online ⟨fun _ => false, 5, true⟩
        ⟨"room@c/bob", "room@c", "bob@x", "bob"⟩
        ⟨"Ludolph", "bot@x", "room@c", true, false, [], [], [],
          fun _ => none⟩).2 =
      [Effect.sendMessage "room@c" "Hello bob!" "groupchat"] ∧
    (muc_offline ⟨fun _ => false, 5, true⟩
        ⟨"room@c/bob", "room@c", "bob@x", "bob"⟩
        ⟨"Ludolph", "bot@x", "room@c", true, false, [], [], [],
          fun _ => none⟩).2 =
      [Effect.sendMessage "room@c" "Bye bye bob" "groupchat"] ∧
    muc_message
      ⟨"Ludolph", "bot@x", "room@c", true, false, [], [], [], fun _ => none⟩
      ["help"] ⟨"groupchat", "bob", "Ludolph: help"⟩ (some "bob@x") =
      .ok .dropped :=
  greeting_farewell_ungated ⟨fun _ => false, 5, true⟩
    ⟨"room@c/bob", "room@c", "bob@x", "bob"⟩
    ⟨"Ludolph", "bot@x", "room@c", true, false, [], [], [], fun _ => none⟩
    ["help"] ⟨"groupchat", "bob", "Ludolph: help"⟩ (some "bob@x")
    (by decide) rfl

/-- C1: after a configuration (re)load the invited set has been
intersected with the new room-member set, and the reconciliation pass
that follows (the bot's own rejoin presence) only ever adds configured
members, so `invited ⊆ roomMembers` holds both right after the load and
right after the subsequent reconciliation. -/
theorem invited_subset_room_users (c : Config) (s : BotState) (env : Env)
    (p : Presence)
    (hp : p.pfrom = (load_config c s).room ++ "/" ++ (load_config c s).nick) :
    (load_config c s).room_users_invited ⊆ (load_config c s).room_users ∧
    (muc_online env p (load_config c s)).1.room_users_invited ⊆
      (muc_online env p (load_config c s)).1.room_users := by
  refine ⟨load_config_invited_sub c s, ?_⟩
  intro x hx
  rw [muc_online_own env p _ hp] at hx ⊢
  simp only at hx ⊢
  rcases foldl_reconcile_invited_sub _ _ _ _ _ _ hx with h | h
  · exact load_config_invited_sub c s h
  · exact h

/-- Witness for C1: a concrete reload carrying a stale persisted
invite, followed by the bot's own rejoin presence. -/
theorem invited_subset_room_users_witness :
    (load_config sampleConfig sampleState).room_users_invited ⊆
      (load_config sampleConfig sampleState).room_users ∧
    (muc_online sampleEnv sampleOwnPresence
        (load_config sampleConfig sampleState)).1.room_users_invited ⊆
      (muc_online sampleEnv sampleOwnPresence
        (load_config sampleConfig sampleState)).1.room_users :=
  invited_subset_room_users sampleConfig sampleState sampleEnv
    sampleOwnPresence (by decide)

/-- C5: running the own-presence reconciliation twice in a row with the
same presence environment issues no invitation at all on the second
run, never invites an identity present in the room, and issues at most
one invitation per identity across both runs. -/
theorem reconciliation_idempotent (env : Env) (p : Presence) (s : BotState)
    (hp : p.pfrom = s.room ++ "/" ++ s.nick) :
    (∀ r u, Effect.invite r u ∉ (muc_online env p (muc_online env p s).1).2) ∧
    (∀ u, env.present u = true →
      (muc_online env p s).2.count (Effect.invite s.room u) = 0) ∧
    (∀ u, ((muc_online env p s).2 ++
        (muc_online env p (muc_online env p s).1).2).count
        (Effect.invite s.room u) ≤ 1) := by
  have h1 := muc_online_own env p s hp
  have hp2 : p.pfrom =
      (muc_online env p s).1.room ++ "/" ++ (muc_online env p s).1.nick := by
    rw [h1]
    exact hp
  have h2 := muc_online_own env p (muc_online env p s).1 hp2
  rw [h2, h1]
  simp only []
  have hcov : ∀ u ∈ s.room_users, env.present u = false → u ≠ s.room →
      s.room_invites = true →
      u ∈ (s.room_users.foldl (reconcileUser env s.room s.room_invites)
        ⟨s.room_users_invited, s.room_users_last_seen, []⟩).invited :=
    fun u hu ha hb hc =>
      foldl_reconcile_covers env s.room s.room_invites s.room_users _ u hu ha hb hc
  have hno := foldl_reconcile_no_new_invites env s.room s.room_invites s.room_users
    ⟨(s.room_users.foldl (reconcileUser env s.room s.room_invites)
        ⟨s.room_users_invited, s.room_users_last_seen, []⟩).invited,
     (s.room_users.foldl (reconcileUser env s.room s.room_invites)
        ⟨s.room_users_invited, s.room_users_last_seen, []⟩).lastSeen, []⟩
    (fun u hu ha hb hc => hcov u hu ha hb hc)
  have hno1 := hno.1
  simp only [] at hno1
  refine ⟨?_, ?_, ?_⟩
  · intro r u hmem
    rw [hno1] at hmem
    rcases List.mem_append.mp hmem with hmem' | hmem'
    · rcases List.mem_append.mp hmem' with hcfg | hsend
      · exact invite_not_in_room_config_effects env _ r u hcfg
      · simp at hsend
    · simp at hmem'
  · intro u hu
    rw [List.count_append, List.count_append,
      List.count_eq_zero.mpr (invite_not_in_room_config_effects env s s.room u),
      foldl_reconcile_present_no_invite env s.room s.room_invites s.room_users
        ⟨s.room_users_invited, s.room_users_last_seen, []⟩ u hu]
    simp
  · intro u
    rw [hno1]
    simp only [List.count_append]
    rw [List.count_eq_zero.mpr (invite_not_in_room_config_effects env s s.room u),
      List.count_eq_zero.mpr (invite_not_in_room_config_effects env _ s.room u)]
    have hle := foldl_reconcile_count_le env s.room s.room_invites s.room_users
      ⟨s.room_users_invited, s.room_users_last_seen, []⟩ u
    simp only [List.count_nil] at hle
    have hsend : ([Effect.sendMessage s.room (s.nick ++ " is here!") "groupchat",
        Effect.sendPresence p.pfrom].count (Effect.invite s.room u)) = 0 := by
      simp
    rw [hsend]
    simp only [List.count_nil]
    split_ifs at hle <;> omega

/-- Witness for C5: a concrete state where the first run invites
`a@x`, the present `b@x` is never invited, and the second run issues
nothing. -/
theorem reconciliation_idempotent_witness :
    Effect.invite "room@c" "a@x" ∉
      (muc_online sampleEnv sampleOwnPresence
        (muc_online sampleEnv sampleOwnPresence sampleState).1).2 ∧
    (muc_online sampleEnv sampleOwnPresence sampleState).2.count
      (Effect.invite "room@c" "b@x") = 0 ∧
    ((muc_online sampleEnv sampleOwnPresence sampleState).2 ++
      (muc_online sampleEnv sampleOwnPresence
        (muc_online sampleEnv sampleOwnPresence sampleState).1).2).count
      (Effect.invite "room@c" "a@x") ≤ 1 :=
  ⟨(reconciliation_idempotent sampleEnv sampleOwnPresence sampleState
      (by decide)).1 "room@c" "a@x",
   (reconciliation_idempotent sampleEnv sampleOwnPresence sampleState
      (by decide)).2.1 "b@x" rfl,
   (reconciliation_idempotent sampleEnv sampleOwnPresence sampleState
      (by decide)).2.2 "a@x"⟩

/-- C9: the member-entered and member-left presence events update only
the last-seen map (for the entering/leaving identity); the invited set,
the configured member and admin sets are untouched, and the emitted
effects are exactly the greeting/farewell message — no invitation, no
affiliation push, no room-config push. -/
theorem presence_events_touch_only_last_seen (env : Env) (p : Presence)
    (s : BotState) (hp : p.pfrom ≠ s.room ++ "/" ++ s.nick) :
    ((muc_online env p s).1.room_users_invited = s.room_users_invited ∧
     (muc_online env p s).1.room_users = s.room_users ∧
     (muc_online env p s).1.room_admins = s.room_admins ∧
     (muc_online env p s).1.room_users_last_seen =
       updateLastSeen s.room_users_last_seen p.mucJid env.now ∧
     (muc_online env p s).2 =
       [Effect.sendMessage p.pfromBare ("Hello " ++ p.mucNick ++ "!") "groupchat"]) ∧
    ((muc_offline env p s).1.room_users_invited = s.room_users_invited ∧
     (muc_offline env p s).1.room_users = s.room_users ∧
     (muc_offline env p s).1.room_admins = s.room_admins ∧
     (muc_offline env p s).1.room_users_last_seen =
       updateLastSeen s.room_users_last_seen p.mucJid env.now ∧
     (muc_offline env p s).2 =
       [Effect.sendMessage p.pfromBare ("Bye bye " ++ p.mucNick) "groupchat"]) := by
  simp [muc_online, muc_offline, hp]

/-- Witness for C9: a concrete join and leave of `alice`. -/
theorem presence_events_touch_only_last_seen_witness :
    ((muc_online sampleEnv sampleMemberPresence sampleState).1.room_users_invited =
       sampleState.room_users_invited ∧
     (muc_online sampleEnv sampleMemberPresence sampleState).1.room_users =
       sampleState.room_users ∧
     (muc_online sampleEnv sampleMemberPresence sampleState).1.room_admins =
       sampleState.room_admins ∧
     (muc_online sampleEnv sampleMemberPresence sampleState).1.room_users_last_seen =
       updateLastSeen sampleState.room_users_last_seen "alice@x" 7 ∧
     (muc_online sampleEnv sampleMemberPresence sampleState).2 =
       [Effect.sendMessage "room@c" "Hello alice!" "groupchat"]) ∧
    ((muc_offline sampleEnv sampleMemberPresence sampleState).1.room_users_invited =
       sampleState.room_users_invited ∧
     (muc_offline sampleEnv sampleMemberPresence sampleState).1.room_users =
       sampleState.room_users ∧
     (muc_offline sampleEnv sampleMemberPresence sampleState).1.room_admins =
       sampleState.room_admins ∧
     (muc_offline sampleEnv sampleMemberPresence sampleState).1.room_users_last_seen =
       updateLastSeen sampleState.room_users_last_seen "alice@x" 7 ∧
     (muc_offline sampleEnv sampleMemberPresence sampleState).2 =
       [Effect.sendMessage "room@c" "Bye bye alice" "groupchat"]) :=
  presence_events_touch_only_last_seen sampleEnv sampleMemberPresence
    sampleState (by decide)

/-- C8: in any plugin load or reload pass, a plugin whose constructor
raises ends up absent from the registry, while every other plugin whose
constructor succeeds is registered — one failing constructor never
aborts the rest of the pass. -/
theorem plugin_failure_isolated (init : Bool) (reg : List String)
    (specs : List PluginSpec) (hreg : reg.Nodup)
    (hnd : (specs.map PluginSpec.module).Nodup)
    (p : PluginSpec) (hp : p ∈ specs) (hb : p.module ≠ botModname) :
    (p.ctorOk = false → p.module ∉ load_plugins init specs reg) ∧
    (p.ctorOk = true → p.module ∈ load_plugins init specs reg) := by
  obtain ⟨pre, post, rfl⟩ := List.append_of_mem hp
  rw [List.map_append, List.map_cons] at hnd
  have hnodup := List.nodup_append.mp hnd
  have hpre : ∀ q ∈ pre, q.module ≠ p.module := by
    intro q hq heq
    exact hnodup.2.2 (List.mem_map_of_mem _ hq)
      (heq ▸ List.mem_cons_self p.module (post.map PluginSpec.module))
  have hpost : ∀ q ∈ post, q.module ≠ p.module := by
    intro q hq heq
    exact (List.nodup_cons.mp hnodup.2.1).1 (heq ▸ List.mem_map_of_mem _ hq)
  unfold load_plugins
  rw [List.foldl_append, List.foldl_cons]
  have hreg₀ : (if init then [botModname]
      else reg.filter (fun m => decide (m = botModname ∨
        m ∈ (pre ++ p :: post).map PluginSpec.module))).Nodup := by
    split_ifs with hi
    · exact List.nodup_singleton _
    · exact hreg.filter _
  have hreg₁ := foldl_loadPluginStep_nodup init pre _ hreg₀
  have hinit : init = true → p.module ∉ pre.foldl (loadPluginStep init)
      (if init then [botModname]
       else reg.filter (fun m => decide (m = botModname ∨
         m ∈ (pre ++ p :: post).map PluginSpec.module))) := by
    intro hi hmem
    have := (foldl_loadPluginStep_mem_other init pre _ p.module hpre).mp hmem
    rw [if_pos hi] at this
    rw [List.mem_singleton] at this
    exact hb this
  have hstep := loadPluginStep_self init _ p hreg₁ hinit
  constructor <;> intro hok
  · intro hmem
    exact hstep.1 hok
      ((foldl_loadPluginStep_mem_other init post _ p.module hpost).mp hmem)
  · exact (foldl_loadPluginStep_mem_other init post _ p.module hpost).mpr
      (hstep.2 hok)

/-- Witness for C8: an initial load with a failing first plugin and a
succeeding second one — the first is absent, the second registered. -/
theorem plugin_failure_isolated_witness :
    ("p1" ∉ load_plugins true [⟨"p1", false⟩, ⟨"p2", true⟩] []) ∧
    ("p2" ∈ load_plugins true [⟨"p1", false⟩, ⟨"p2", true⟩] []) :=
  ⟨(plugin_failure_isolated true [] [⟨"p1", false⟩, ⟨"p2", true⟩]
      (by decide) (by decide) ⟨"p1", false⟩ (by decide) (by decide)).1 rfl,
   (plugin_failure_isolated true [] [⟨"p1", false⟩, ⟨"p2", true⟩]
      (by decide) (by decide) ⟨"p2", true⟩ (by decide) (by decide)).2 rfl⟩

end Ludolph
